import Mathlib

/-
  Verification of the allocator module of the `allocators-c` repository.

  Shallow embedding conventions:
  * Machine addresses and sizes (`uintptr_t`, `size_t`) are modelled as `Nat`,
    i.e. idealized machine integers.  All arithmetic performed by the code in
    the runs studied here stays far below 2^64, and every subtraction in the
    source is guarded so that it cannot underflow, so no wrap-around is modelled.
  * Byte memory is a total function `Nat -> Nat` from addresses to stored values.
    `memset`/`memmove` become pointwise re-definitions of that function.
  * A backing buffer is represented by its base address and its length; the
    allocator structures keep the same fields as the C structs, plus the
    memory map they act on.
  * `NULL` is the address 0, exactly as in C.
  * `assert(...)` failures are surfaced as explicit outcome flags where a claim
    depends on them; functions return their result together with the updated
    allocator state.

  Sizes of the C types used by the module (64-bit platform):
  `sizeof(void*) = 8`, hence `DEFAULT_ALIGNEMENT = 2 * sizeof(void*) = 16`,
  `sizeof(Allocator_Stack_Header) = 16` (two `size_t` fields) and
  `sizeof(Allocator_Pool_Free_Node) = 8` (one pointer).
-/

/-- Constant `DEFAULT_ALIGNEMENT` from `utils.h`: `2 * sizeof(void*)` on a 64-bit machine. -/
def DEFAULT_ALIGNEMENT : Nat := 16

/-- Size `sizeof(Allocator_Stack_Header)`: two `size_t` fields (`prev_offset`, `padding`). -/
def sizeof_Allocator_Stack_Header : Nat := 16

/-- Size `sizeof(Allocator_Pool_Free_Node)`: a single `next` pointer. -/
def sizeof_Allocator_Pool_Free_Node : Nat := 8

/-- Point update of a memory map: the store of one value at one address. -/
def writeMem (m : Nat → Nat) (a v : Nat) : Nat → Nat :=
  fun x => if x = a then v else m x

/-- Model of `memset(dst, 0, n)`: zero the `n` bytes starting at address `dst`. -/
def memsetBytes (m : Nat → Nat) (dst n : Nat) : Nat → Nat :=
  fun x => if dst ≤ x ∧ x < dst + n then 0 else m x

/-- Model of `memmove(dst, src, n)`: copy `n` bytes from `src` to `dst`, reading all
source bytes from the pre-call memory (memmove semantics). -/
def memmoveBytes (m : Nat → Nat) (dst src n : Nat) : Nat → Nat :=
  fun x => if dst ≤ x ∧ x < dst + n then m (src + (x - dst)) else m x

/-- Function `is_power_of_two` from `src/utils.c`: `(x & (x - 1)) == 0`.
For `x = 0` this evaluates to `true` (the documented caveat). -/
def is_power_of_two (x : Nat) : Bool :=
  (x &&& (x - 1)) == 0

/-- Function `align_forward_uintptr` from `src/utils.c` (precondition: `is_power_of_two align`). -/
def align_forward_uintptr (ptr align : Nat) : Nat :=
  let modulo := ptr &&& (align - 1)
  if modulo ≠ 0 then ptr + (align - modulo) else ptr

/-- Function `align_forward_size` from `src/utils.c`: the same computation in the size domain. -/
def align_forward_size (ptr align : Nat) : Nat :=
  let modulo := ptr &&& (align - 1)
  if modulo ≠ 0 then ptr + (align - modulo) else ptr

/-- Function `align_forward` from `utils.h` (the copy used by the linear allocator);
its body is identical to `align_forward_uintptr`. -/
def align_forward (ptr align : Nat) : Nat :=
  let modulo := ptr &&& (align - 1)
  if modulo ≠ 0 then ptr + (align - modulo) else ptr

/-- Struct `Allocator_Linear` from `allocators.h`, together with the byte memory the
allocator operates on (`mem x` is the byte stored at address `x`). -/
structure Allocator_Linear where
  buf : Nat
  buf_len : Nat
  prev_offset : Nat
  curr_offset : Nat
  mem : Nat → Nat

/-- Function `allocator_linear_init` from `src/allocators_linear.c`. -/
def allocator_linear_init (backing_buf backing_buf_len : Nat) (mem : Nat → Nat) :
    Allocator_Linear :=
  { buf := backing_buf, buf_len := backing_buf_len,
    prev_offset := 0, curr_offset := 0, mem := mem }

/-- Function `allocator_linear_alloc_align` from `src/allocators_linear.c`.
Returns the allocated address (`none` encodes the `NULL` out-of-memory result)
and the updated allocator. -/
def allocator_linear_alloc_align (a : Allocator_Linear) (data_size data_align : Nat) :
    Option Nat × Allocator_Linear :=
  let curr_ptr := a.buf + a.curr_offset
  let offset := align_forward curr_ptr data_align - a.buf
  if offset + data_size ≤ a.buf_len then
    let ptr := a.buf + offset
    (some ptr,
      { a with prev_offset := offset, curr_offset := offset + data_size,
               mem := memsetBytes a.mem ptr data_size })
  else
    (none, a)

/-- Function `allocator_linear_alloc` from `src/allocators_linear.c`. -/
def allocator_linear_alloc (a : Allocator_Linear) (data_size : Nat) :
    Option Nat × Allocator_Linear :=
  allocator_linear_alloc_align a data_size DEFAULT_ALIGNEMENT

/-- Function `allocator_linear_free` from `src/allocators_linear.c`: reset both offsets. -/
def allocator_linear_free (a : Allocator_Linear) : Allocator_Linear :=
  { a with prev_offset := 0, curr_offset := 0 }

/-- Function `allocator_linear_resize_align` from `src/allocators_linear.c`.
Notes on the faithful translation:
* the in-place branch zeroes `new_size - old_size` bytes starting at
  `buf + curr_offset` (that is, starting at `buf + prev_offset + new_size`),
  exactly as the `memset(&allocator->buf[allocator->curr_offset], ...)` call does;
* the relocation branch calls `memmove(new_memory, old_memory, old_size)` with
  `old_size` (the computed `copy_file = min(old_size, new_size)` is unused in
  the C source); when the inner allocation fails the C code would `memmove`
  to `NULL` (undefined behaviour); here the failure is returned without a copy;
* the final out-of-bounds branch is an `assert(0)` followed by `return NULL`,
  modelled as a plain failure. -/
def allocator_linear_resize_align (a : Allocator_Linear)
    (old_memory old_size new_size align : Nat) : Option Nat × Allocator_Linear :=
  if old_memory = 0 ∨ old_size = 0 then
    allocator_linear_alloc_align a new_size align
  else if a.buf ≤ old_memory ∧ old_memory < a.buf + a.buf_len then
    if a.buf + a.prev_offset = old_memory then
      let currNew := a.prev_offset + new_size
      if new_size > old_size then
        (some old_memory,
          { a with curr_offset := currNew,
                   mem := memsetBytes a.mem (a.buf + currNew) (new_size - old_size) })
      else
        (some old_memory, { a with curr_offset := currNew })
    else
      match allocator_linear_alloc_align a new_size align with
      | (some new_memory, a1) =>
          (some new_memory,
            { a1 with mem := memmoveBytes a1.mem new_memory old_memory old_size })
      | (none, a1) => (none, a1)
  else
    (none, a)

/-- Function `allocator_linear_resize` from `src/allocators_linear.c`. -/
def allocator_linear_resize (a : Allocator_Linear)
    (old_memory old_size new_size : Nat) : Option Nat × Allocator_Linear :=
  allocator_linear_resize_align a old_memory old_size new_size DEFAULT_ALIGNEMENT

/-- A caller storing one byte into memory it has been handed (for example the
demo program writing through the returned pointer).  Not an allocator entry
point; it only touches the memory map. -/
def store_byte (a : Allocator_Linear) (addr v : Nat) : Allocator_Linear :=
  { a with mem := writeMem a.mem addr v }

/-- Struct `Allocator_Stack_Header`: the canonical header variant (spec section 9),
storing both the previous offset and the padding as full-width fields. -/
structure Allocator_Stack_Header where
  prev_offset : Nat
  padding : Nat
deriving DecidableEq

/-- Function `calc_padding_with_header` (canonical copy, the one compiled with the
header-with-prev_offset stack allocator).  `needed_space &&& (align - 1)`
mirrors the bitmask modulo of the source. -/
def calc_padding_with_header (ptr align header_size : Nat) : Nat :=
  let modulo := ptr &&& (align - 1)
  let padding := if modulo ≠ 0 then align - modulo else 0
  if padding < header_size then
    let needed_space := header_size - padding
    if needed_space &&& (align - 1) ≠ 0 then
      padding + align * (1 + needed_space / align)
    else
      padding + align * (needed_space / align)
  else
    padding

/-- Struct `Allocator_Stack` (canonical variant with `prev_offset` and `curr_offset`).
`headers x` is the `Allocator_Stack_Header` stored at address `x`; the data
bytes of stack allocations are not modelled because no claim reads them, and
header and data regions of live allocations never overlap (each header sits in
the padding of its own allocation). -/
structure Allocator_Stack where
  buf : Nat
  buf_len : Nat
  prev_offset : Nat
  curr_offset : Nat
  headers : Nat → Allocator_Stack_Header

/-- Function `allocator_stack_init`. -/
def allocator_stack_init (backing_buf backing_buf_len : Nat)
    (headers : Nat → Allocator_Stack_Header) : Allocator_Stack :=
  { buf := backing_buf, buf_len := backing_buf_len,
    prev_offset := 0, curr_offset := 0, headers := headers }

/-- Function `allocator_stack_alloc_align` (canonical copy).  Faithful details:
* alignments above 128 are capped to 128;
* the allocator field update is `prev_offset += curr_offset` — the compound
  assignment of the source line `allocator->prev_offset += allocator->curr_offset;`
  is translated verbatim;
* the header written just below the returned address stores the (updated)
  `prev_offset` and the padding;
* the returned block is zero-filled (`memset`), which only touches data bytes,
  not any live header, so the header map needs no masking. -/
def allocator_stack_alloc_align (a : Allocator_Stack) (data_size align : Nat) :
    Option Nat × Allocator_Stack :=
  let align2 := if align > 128 then 128 else align
  let curr_addr := a.buf + a.curr_offset
  let padding := calc_padding_with_header curr_addr align2 sizeof_Allocator_Stack_Header
  if a.curr_offset + padding + data_size > a.buf_len then
    (none, a)
  else
    let prevNew := a.prev_offset + a.curr_offset
    let next_addr := curr_addr + padding
    let headersNew :=
      fun x => if x = next_addr - sizeof_Allocator_Stack_Header then
                 { prev_offset := prevNew, padding := padding }
               else a.headers x
    (some next_addr,
      { a with prev_offset := prevNew,
               curr_offset := a.curr_offset + padding + data_size,
               headers := headersNew })

/-- Function `allocator_stack_alloc`. -/
def allocator_stack_alloc (a : Allocator_Stack) (data_size : Nat) :
    Option Nat × Allocator_Stack :=
  allocator_stack_alloc_align a data_size DEFAULT_ALIGNEMENT

/-- Outcome of `allocator_stack_free`: either the frame is popped, or the call
is a no-op (null pointer or the permissive double-free region), or one of the
two `assert(0)` branches fires. -/
inductive StackFreeOutcome where
  | popped
  | noop
  | outOfBoundsAssert
  | orderViolationAssert
deriving DecidableEq

/-- Function `allocator_stack_free` (canonical copy).  The bounds test of the source is
`curr_addr < start || curr_addr > end` (closed upper end); offsets at or past
`curr_offset` are treated as permissive double frees; the implied previous
offset is `curr_addr - header.padding - start` and must match the stored
`header.prev_offset`, otherwise the out-of-order `assert(0)` fires. -/
def allocator_stack_free (a : Allocator_Stack) (ptr : Nat) :
    StackFreeOutcome × Allocator_Stack :=
  if ptr = 0 then
    (StackFreeOutcome.noop, a)
  else
    let start := a.buf
    let endAddr := start + a.buf_len
    if ptr < start ∨ ptr > endAddr then
      (StackFreeOutcome.outOfBoundsAssert, a)
    else if ptr ≥ start + a.curr_offset then
      (StackFreeOutcome.noop, a)
    else
      let header := a.headers (ptr - sizeof_Allocator_Stack_Header)
      let prev_offset := ptr - header.padding - start
      if prev_offset ≠ header.prev_offset then
        (StackFreeOutcome.orderViolationAssert, a)
      else
        (StackFreeOutcome.popped,
          { a with curr_offset := prev_offset, prev_offset := header.prev_offset })

/-- Function `allocator_stack_free_all`. -/
def allocator_stack_free_all (a : Allocator_Stack) : Allocator_Stack :=
  { a with prev_offset := 0, curr_offset := 0 }

/-- Struct `Allocator_Pool` from `allocators.h`.  `free_list_head` is the address of
the first free chunk (`0` encodes `NULL`).  `mem x` is the machine word stored
at address `x`; the intrusive free list keeps the `next` pointer in the first
word of each free chunk. -/
structure Allocator_Pool where
  buf : Nat
  buf_len : Nat
  chunk_size : Nat
  free_list_head : Nat
  mem : Nat → Nat

/-- The loop body of `allocator_pool_free_all`: push the chunk with index `i`
onto the intrusive free list. -/
def pool_push_chunk (s : Allocator_Pool) (i : Nat) : Allocator_Pool :=
  let ptr := s.buf + i * s.chunk_size
  { s with mem := writeMem s.mem ptr s.free_list_head, free_list_head := ptr }

/-- Function `allocator_pool_free_all` from `src/allocators_pool.c`: for
`i = 0 .. chunk_count - 1` push chunk `i` onto the current free list (the list
is not cleared first, exactly as in the source). -/
def allocator_pool_free_all (a : Allocator_Pool) : Allocator_Pool :=
  let chunk_count := a.buf_len / a.chunk_size
  (List.range chunk_count).foldl pool_push_chunk a

/-- Function `allocator_pool_init` from `src/allocators_pool.c`.  Faithful details:
* the aligned start address and the shrunken usable length are computed, but
  the stored buffer pointer is the ORIGINAL `backing_buf` (the source stores
  `allocator->buf = (uint8_t*) backing_buf;`, not `start`);
* `chunk_size` is rounded up to a multiple of `chunk_align`;
* the two configuration `assert`s of the source (`chunk_size` at least the
  free-node size, buffer at least one chunk) hold in every use below;
* `free_list_head` starts as `NULL` and `allocator_pool_free_all` builds the
  initial free list. -/
def allocator_pool_init (backing_buf backing_buf_len chunk_size chunk_align : Nat)
    (mem : Nat → Nat) : Allocator_Pool :=
  let start := align_forward_uintptr backing_buf chunk_align
  let len2 := backing_buf_len - (start - backing_buf)
  let chunk_size2 := align_forward_size chunk_size chunk_align
  allocator_pool_free_all
    { buf := backing_buf, buf_len := len2, chunk_size := chunk_size2,
      free_list_head := 0, mem := mem }

/-- Function `allocator_pool_alloc` from `src/allocators_pool.c`.  Result components:
the allocated chunk address (`none` encodes the `NULL` return), whether the
`assert(0 && "Pool allocator has no free memory")` fired, and the new state.
On success the head is popped and the chunk is zeroed by `memset` — at the
word granularity modelled here that clears the intrusive `next` word of the
chunk. -/
def allocator_pool_alloc (a : Allocator_Pool) : Option Nat × Bool × Allocator_Pool :=
  let free_node := a.free_list_head
  if free_node = 0 then
    (none, true, a)
  else
    (some free_node, false,
      { a with free_list_head := a.mem free_node,
               mem := writeMem a.mem free_node 0 })

/-- Outcome of `allocator_pool_free`: pushed onto the free list, no-op on null,
or the out-of-bounds `assert(0)` fired. -/
inductive PoolFreeOutcome where
  | pushed
  | noopNull
  | outOfBoundsAssert
deriving DecidableEq

/-- Function `allocator_pool_free` from `src/allocators_pool.c`.  The bounds test of the
source is `ptr < start || ptr > end` with `end = &buf[buf_len]` (closed upper
end); an accepted pointer becomes the new head of the intrusive free list. -/
def allocator_pool_free (a : Allocator_Pool) (ptr : Nat) :
    PoolFreeOutcome × Allocator_Pool :=
  if ptr = 0 then
    (PoolFreeOutcome.noopNull, a)
  else if ptr < a.buf ∨ ptr > a.buf + a.buf_len then
    (PoolFreeOutcome.outOfBoundsAssert, a)
  else
    (PoolFreeOutcome.pushed,
      { a with mem := writeMem a.mem ptr a.free_list_head, free_list_head := ptr })

/-- The state after `k` consecutive `allocator_pool_alloc` calls. -/
def pool_alloc_iter (a : Allocator_Pool) : Nat → Allocator_Pool
  | 0 => a
  | k + 1 => (allocator_pool_alloc (pool_alloc_iter a k)).2.2

/-- The address returned by the `(k+1)`-th consecutive `allocator_pool_alloc`
call (so `pool_alloc_result a 0` is the first allocation). -/
def pool_alloc_result (a : Allocator_Pool) (k : Nat) : Option Nat :=
  (allocator_pool_alloc (pool_alloc_iter a k)).1

/-! Theorems about the embedded operations. -/

/-- Helper: the naive aligned padding `(a - ptr % a) % a` written as the
source computes it, together with its basic properties. -/
theorem aligned_offset_mod (ptr a : Nat) (hpos : 0 < a) :
    (ptr + (if ptr % a ≠ 0 then a - ptr % a else 0)) % a = 0 := by
  split
  · have hrlt : ptr % a < a := Nat.mod_lt _ hpos
    have hdm := Nat.div_add_mod ptr a
    have hsucc : a * (ptr / a + 1) = a * (ptr / a) + a := Nat.mul_succ a _
    have heq : ptr + (a - ptr % a) = a * (ptr / a + 1) := by omega
    rw [heq, Nat.mul_mod_right]
  · next h =>
    rw [Nat.add_zero]
    exact not_ne_iff.mp h

/-- C8: for every address `addr` and every power-of-two alignment `2 ^ k`,
`align_forward_uintptr addr (2 ^ k)` is at least `addr`, less than
`addr + 2 ^ k`, and a multiple of `2 ^ k`.  (The alignment 0, which
`is_power_of_two` also accepts, is excluded: the module documents that the
utility is only invoked on nonzero alignments, and no value can satisfy
`x < addr + 0`.) -/
theorem align_forward_uintptr_spec (addr k : Nat) :
    addr ≤ align_forward_uintptr addr (2 ^ k) ∧
    align_forward_uintptr addr (2 ^ k) < addr + 2 ^ k ∧
    align_forward_uintptr addr (2 ^ k) % 2 ^ k = 0 := by
  have hpos : 0 < 2 ^ k := Nat.two_pow_pos k
  have hmod := aligned_offset_mod addr (2 ^ k) hpos
  simp only [align_forward_uintptr, Nat.and_pow_two_sub_one_eq_mod]
  by_cases h : addr % 2 ^ k = 0
  · simp only [h, ne_eq, not_true_eq_false, if_false]
    exact ⟨Nat.le_refl _, by omega, by trivial⟩
  · simp only [ne_eq, h, not_false_eq_true, if_true]
    have hrlt : addr % 2 ^ k < 2 ^ k := Nat.mod_lt _ hpos
    have hrpos : 0 < addr % 2 ^ k := Nat.pos_of_ne_zero h
    refine ⟨Nat.le_add_right _ _, by omega, ?_⟩
    simpa [h] using hmod

/-- C8 witness: the three postconditions at `addr = 13`, `align = 2 ^ 4`. -/
theorem align_forward_uintptr_spec_witness :
    13 ≤ align_forward_uintptr 13 (2 ^ 4) ∧
    align_forward_uintptr 13 (2 ^ 4) < 13 + 2 ^ 4 ∧
    align_forward_uintptr 13 (2 ^ 4) % 2 ^ 4 = 0 :=
  align_forward_uintptr_spec 13 4

/-- C7: for every address, every power-of-two alignment `2 ^ k` and every
header size, `calc_padding_with_header` returns the minimum padding `p` such
that `ptr + p` is a multiple of the alignment and the header fits in the
padding (`header_size ≤ p`); when the naive aligned padding is too small it is
increased in increments of the alignment until the header fits. -/
theorem calc_padding_with_header_spec (ptr k header_size : Nat) :
    (ptr + calc_padding_with_header ptr (2 ^ k) header_size) % 2 ^ k = 0 ∧
    header_size ≤ calc_padding_with_header ptr (2 ^ k) header_size ∧
    ∀ q, (ptr + q) % 2 ^ k = 0 → header_size ≤ q →
      calc_padding_with_header ptr (2 ^ k) header_size ≤ q := by
  have hpos : 0 < 2 ^ k := Nat.two_pow_pos k
  set a := 2 ^ k with ha
  set p0 : Nat := if ptr % a ≠ 0 then a - ptr % a else 0 with hp0
  have hp0lt : p0 < a := by
    rw [hp0]; split
    · next h => exact Nat.sub_lt hpos (Nat.pos_of_ne_zero h)
    · exact hpos
  have hp0mod : (ptr + p0) % a = 0 := by
    rw [hp0]; exact aligned_offset_mod ptr a hpos
  have hqmod : ∀ q, (ptr + q) % a = 0 → q % a = p0 := by
    intro q hq
    have h1 : (ptr + q) % a = (ptr + p0) % a := by rw [hq, hp0mod]
    have h2 : q % a = p0 % a := Nat.ModEq.add_left_cancel' ptr h1
    rw [h2, Nat.mod_eq_of_lt hp0lt]
  have hmask : ∀ x : Nat, x &&& (a - 1) = x % a := by
    intro x
    rw [ha]
    exact Nat.and_pow_two_sub_one_eq_mod x k
  have hdef : calc_padding_with_header ptr a header_size =
      if p0 < header_size then
        if (header_size - p0) % a ≠ 0 then p0 + a * (1 + (header_size - p0) / a)
        else p0 + a * ((header_size - p0) / a)
      else p0 := by
    simp only [calc_padding_with_header, hmask, ← hp0]
  rw [hdef]
  obtain ⟨t, ht⟩ : a ∣ ptr + p0 := Nat.dvd_of_mod_eq_zero hp0mod
  by_cases hcase : p0 < header_size
  · simp only [if_pos hcase]
    set needed := header_size - p0 with hneed
    have hdm2 := Nat.div_add_mod needed a
    by_cases hm : needed % a = 0
    · simp only [hm, ne_eq, not_true_eq_false, if_false]
      refine ⟨?_, by omega, ?_⟩
      · have heq : ptr + (p0 + a * (needed / a)) = a * (t + needed / a) := by
          have := Nat.mul_add a t (needed / a)
          omega
        rw [heq, Nat.mul_mod_right]
      · intro q hq hhs
        have hqa := hqmod q hq
        have hdmq := Nat.div_add_mod q a
        have h1 : a * (needed / a) ≤ a * (q / a) := by omega
        have h2 : needed / a ≤ q / a := Nat.le_of_mul_le_mul_left h1 hpos
        have h3 : a * (needed / a) ≤ a * (q / a) := Nat.mul_le_mul_left a h2
        omega
    · simp only [ne_eq, hm, not_false_eq_true, if_true]
      have hmlt : needed % a < a := Nat.mod_lt _ hpos
      refine ⟨?_, ?_, ?_⟩
      · have heq : ptr + (p0 + a * (1 + needed / a)) = a * (t + (1 + needed / a)) := by
          have := Nat.mul_add a t (1 + needed / a)
          omega
        rw [heq, Nat.mul_mod_right]
      · have := Nat.mul_add a 1 (needed / a)
        omega
      · intro q hq hhs
        have hqa := hqmod q hq
        have hdmq := Nat.div_add_mod q a
        have h1 : a * (needed / a) < a * (q / a) := by omega
        have h2 : needed / a < q / a := Nat.lt_of_mul_lt_mul_left h1
        have h3 : a * (1 + needed / a) ≤ a * (q / a) := Nat.mul_le_mul_left a (by omega)
        omega
  · simp only [if_neg hcase]
    refine ⟨hp0mod, by omega, ?_⟩
    intro q hq _
    have := hqmod q hq
    have := Nat.mod_le q a
    omega

/-- C7 witness: at `ptr = 4`, `align = 2 ^ 3`, `header_size = 16` the returned
padding is aligned, holds the header, and is at most the padding 20 (which the
minimality clause rules out improving on). -/
theorem calc_padding_with_header_spec_witness :
    (4 + calc_padding_with_header 4 (2 ^ 3) 16) % 2 ^ 3 = 0 ∧
    16 ≤ calc_padding_with_header 4 (2 ^ 3) 16 ∧
    calc_padding_with_header 4 (2 ^ 3) 16 ≤ 20 :=
  ⟨(calc_padding_with_header_spec 4 3 16).1,
   (calc_padding_with_header_spec 4 3 16).2.1,
   (calc_padding_with_header_spec 4 3 16).2.2 20 (by decide) (by decide)⟩

/-- C1 (code bug): on a fresh stack allocator (base address 0, length 1024),
three successful `allocator_stack_alloc_align` calls with `size = 8`,
`align = 8` return the addresses 16, 40 and 64, and the header of the third
allocation stores `prev_offset = 72` (because the alloc path executes
`prev_offset += curr_offset` instead of assigning), while the implied previous
offset of address 64 is `64 - 16 - 0 = 48`; freeing the most recent block
therefore fires the out-of-order `assert` and leaves the state unchanged,
contradicting the claimed LIFO pop. -/
theorem stack_free_of_top_block_fires_order_assert :
    (let a0 := allocator_stack_init 0 1024
                 (fun _ => ({ prev_offset := 0, padding := 0 } : Allocator_Stack_Header))
     let r1 := allocator_stack_alloc_align a0 8 8
     let r2 := allocator_stack_alloc_align r1.2 8 8
     let r3 := allocator_stack_alloc_align r2.2 8 8
     r1.1 = some 16 ∧ r2.1 = some 40 ∧ r3.1 = some 64 ∧
     r3.2.prev_offset = 72 ∧
     r3.2.headers 48 = { prev_offset := 72, padding := 16 } ∧
     (allocator_stack_free r3.2 64).1 = StackFreeOutcome.orderViolationAssert ∧
     (allocator_stack_free r3.2 64).2 = r3.2) :=
  ⟨rfl, rfl, rfl, rfl, rfl, rfl, rfl⟩

/-- C2 (code bug): linear allocator over bytes all equal to 7 (base 64,
length 32); `alloc(8, 8)` returns 64, then an in-place
`resize(64, old = 8, new = 16)` returns the same pointer and sets
`curr_offset = 16`, but the newly added byte at offset 8 (address 72) still
holds 7 — the `memset` zeroes the 8 bytes starting at `buf + curr_offset`
(address 80, past the end of the resized block) instead of the added region;
no capacity check is performed on this path. -/
theorem linear_resize_in_place_zero_fills_wrong_region :
    (let a0 := allocator_linear_init 64 32 (fun _ => 7)
     let r1 := allocator_linear_alloc_align a0 8 8
     let r2 := allocator_linear_resize_align r1.2 64 8 16 8
     r1.1 = some 64 ∧ r2.1 = some 64 ∧ r2.2.curr_offset = 16 ∧
     r2.2.mem 72 = 7 ∧ r2.2.mem 80 = 0) :=
  ⟨rfl, rfl, rfl, rfl, rfl⟩

/-- C3 (code bug): linear allocator (base 64, length 64, bytes 7); allocate a
16-byte block A at 64, store 5 at address 76 (offset 12 of A), allocate a
second block at 80 so A is non-terminal, then `resize(A, old = 16, new = 8)`
relocates A to 96.  The source passes `old_size` to `memmove` (the computed
`copy_file = min(old_size, new_size)` is unused), so 16 bytes are copied and
address 108 — outside the 8-byte new block — changes from 7 to 5,
contradicting the claimed copy of exactly `min(old_size, new_size)` bytes. -/
theorem linear_resize_relocation_copies_old_size_bytes :
    (let a0 := allocator_linear_init 64 64 (fun _ => 7)
     let r1 := allocator_linear_alloc_align a0 16 8
     let s1 := store_byte r1.2 76 5
     let r2 := allocator_linear_alloc_align s1 16 8
     let r3 := allocator_linear_resize_align r2.2 64 16 8 8
     r1.1 = some 64 ∧ r2.1 = some 80 ∧ r3.1 = some 96 ∧
     r2.2.mem 108 = 7 ∧ r3.2.mem 108 = 5) :=
  ⟨rfl, rfl, rfl, rfl, rfl⟩

/-- C4 (code bug): linear allocator with length 16; after `alloc(8, 8)` the
in-place `resize(64, old = 8, new = 100)` succeeds and sets
`curr_offset = 100 > buf_len = 16`, breaking the claimed invariant
`prev_offset ≤ curr_offset ≤ length` (the in-place path has no capacity
check; its `memset` would also write past the backing buffer). -/
theorem linear_resize_in_place_breaks_offset_invariant :
    (let a0 := allocator_linear_init 64 16 (fun _ => 0)
     let r1 := allocator_linear_alloc_align a0 8 8
     let r2 := allocator_linear_resize_align r1.2 64 8 100 8
     r2.1 = some 64 ∧ r2.2.curr_offset = 100 ∧ r2.2.buf_len = 16 ∧
     r2.2.buf_len < r2.2.curr_offset) :=
  ⟨rfl, rfl, rfl, by decide⟩

/-- C5 (code bug): `allocator_pool_init` with an unaligned backing buffer
(base 4, length 68, chunk size 32, chunk alignment 32) computes the aligned
start 32 and shrinks the usable length to 40, but stores the ORIGINAL base 4,
so the first `allocator_pool_alloc` hands out the chunk at address 4, which is
not a multiple of the chunk alignment. -/
theorem pool_init_keeps_unaligned_buffer_base :
    (let p := allocator_pool_init 4 68 32 32 (fun _ => 9)
     p.buf = 4 ∧ p.buf_len = 40 ∧ p.chunk_size = 32 ∧
     (allocator_pool_alloc p).1 = some 4 ∧ ¬ 4 % 32 = 0) :=
  ⟨rfl, rfl, rfl, rfl, by decide⟩

/-- C6 counterexample: on a 10-chunk pool (base 32, length 320, chunk size and
alignment 32) the 11th consecutive `allocator_pool_alloc` fires the
`assert(0 && "Pool allocator has no free memory")` — a fatal assertion, not
the claimed recoverable null-result failure. -/
theorem pool_eleventh_alloc_fires_assert :
    (allocator_pool_alloc
      (pool_alloc_iter (allocator_pool_init 32 320 32 32 (fun _ => 1)) 10)).2.1 = true :=
  rfl

/-- C6 (amended): on the 10-chunk pool all 10 allocations succeed in
descending address order; the 11th returns the null failure with the assert
fired and the state unchanged; freeing the 3rd-allocated chunk (address 256)
and allocating again returns exactly that chunk. -/
theorem pool_exhaustion_and_reuse :
    (let p := allocator_pool_init 32 320 32 32 (fun _ => 1)
     (List.range 10).map (pool_alloc_result p) =
       [some 320, some 288, some 256, some 224, some 192,
        some 160, some 128, some 96, some 64, some 32] ∧
     pool_alloc_result p 10 = none ∧
     (allocator_pool_alloc (pool_alloc_iter p 10)).2.2 = pool_alloc_iter p 10 ∧
     (allocator_pool_free (pool_alloc_iter p 10) 256).1 = PoolFreeOutcome.pushed ∧
     (allocator_pool_alloc
       (allocator_pool_free (pool_alloc_iter p 10) 256).2).1 = some 256) :=
  ⟨rfl, rfl, rfl, rfl, rfl⟩

/-- C9 counterexample: on the pool with base 8 and length 16, the one-past-
the-end address 24 lies outside the half-open range `[8, 24)`, yet
`allocator_pool_free` accepts it (the source tests `ptr > end`, a closed upper
bound) and pushes it as the new free-list head instead of failing with the
out-of-bounds assertion. -/
theorem pool_free_accepts_one_past_end :
    (let p := allocator_pool_init 8 16 8 8 (fun _ => 0)
     p.buf + p.buf_len = 24 ∧
     (allocator_pool_free p 24).1 = PoolFreeOutcome.pushed ∧
     (allocator_pool_free p 24).2.free_list_head = 24) :=
  ⟨rfl, rfl, rfl⟩

/-- C10 counterexample: on a freshly initialized 2-chunk pool (chunks at 16
and 8, both already free) a second `allocator_pool_free_all` pushes both
chunks on top of the existing list without clearing it; the first two
allocations return 16 and 8, but a third allocation succeeds again returning
16, so the free list did not contain exactly the 2 chunks. -/
theorem pool_free_all_on_full_list_not_exact :
    (let p := allocator_pool_init 8 16 8 8 (fun _ => 0)
     let q := allocator_pool_free_all p
     pool_alloc_result q 0 = some 16 ∧ pool_alloc_result q 1 = some 8 ∧
     pool_alloc_result q 2 = some 16) :=
  ⟨rfl, rfl, rfl⟩

/-- C9 (amended): for every pool state and non-null pointer, the
out-of-bounds assertion fires exactly when the pointer is outside the CLOSED
range from `buffer` to `buffer + length` (the source accepts the one-past-the-
end address); every accepted pointer is pushed as the new free-list head with
its link word set to the old head; a null pointer is a no-op. -/
theorem allocator_pool_free_bounds (a : Allocator_Pool) (ptr : Nat) (hnz : ptr ≠ 0) :
    ((allocator_pool_free a ptr).1 = PoolFreeOutcome.outOfBoundsAssert ↔
      (ptr < a.buf ∨ a.buf + a.buf_len < ptr)) ∧
    ((ptr < a.buf ∨ a.buf + a.buf_len < ptr) → (allocator_pool_free a ptr).2 = a) ∧
    (a.buf ≤ ptr → ptr ≤ a.buf + a.buf_len →
      (allocator_pool_free a ptr).1 = PoolFreeOutcome.pushed ∧
      (allocator_pool_free a ptr).2.free_list_head = ptr ∧
      (allocator_pool_free a ptr).2.mem ptr = a.free_list_head) ∧
    (allocator_pool_free a 0).1 = PoolFreeOutcome.noopNull ∧
    (allocator_pool_free a 0).2 = a := by
  have hfree : allocator_pool_free a ptr =
      if ptr < a.buf ∨ ptr > a.buf + a.buf_len then
        (PoolFreeOutcome.outOfBoundsAssert, a)
      else
        (PoolFreeOutcome.pushed,
          { a with mem := writeMem a.mem ptr a.free_list_head,
                   free_list_head := ptr }) := by
    unfold allocator_pool_free
    rw [if_neg hnz]
  refine ⟨?_, ?_, ?_, rfl, rfl⟩
  · by_cases h : ptr < a.buf ∨ ptr > a.buf + a.buf_len
    · rw [hfree, if_pos h]
      exact ⟨fun _ => h, fun _ => rfl⟩
    · rw [hfree, if_neg h]
      refine ⟨fun hc => ?_, fun hc => absurd hc h⟩
      exact nomatch hc
  · intro h
    rw [hfree, if_pos h]
  · intro h1 h2
    have h : ¬ (ptr < a.buf ∨ ptr > a.buf + a.buf_len) := by omega
    rw [hfree, if_neg h]
    refine ⟨rfl, rfl, ?_⟩
    simp [writeMem]

/-- C9 witness: the amended bounds behaviour at a concrete pool state and the
in-range pointer 10. -/
theorem allocator_pool_free_bounds_witness :
    (allocator_pool_free
      { buf := 8, buf_len := 16, chunk_size := 8, free_list_head := 0,
        mem := fun _ => 0 } 10).1 = PoolFreeOutcome.pushed :=
  ((allocator_pool_free_bounds
    { buf := 8, buf_len := 16, chunk_size := 8, free_list_head := 0,
      mem := fun _ => 0 } 10 (by decide)).2.2.1 (by decide) (by decide)).1

/-- The free-all loop never changes the scalar fields of the pool. -/
theorem pool_push_fold_fields (l : List Nat) (a : Allocator_Pool) :
    (l.foldl pool_push_chunk a).buf = a.buf ∧
    (l.foldl pool_push_chunk a).buf_len = a.buf_len ∧
    (l.foldl pool_push_chunk a).chunk_size = a.chunk_size := by
  induction l generalizing a with
  | nil => exact ⟨rfl, rfl, rfl⟩
  | cons i t ih => exact ih (pool_push_chunk a i)

/-- After pushing chunks `0 .. n-1` onto the free list, the head is the last
chunk, and each chunk links back to its predecessor (chunk 0 links to the
pre-existing head). -/
theorem pool_push_fold_range (a : Allocator_Pool) (hcs : 0 < a.chunk_size) (n : Nat) :
    (0 < n → ((List.range n).foldl pool_push_chunk a).free_list_head =
      a.buf + (n - 1) * a.chunk_size) ∧
    (∀ i, i < n → ((List.range n).foldl pool_push_chunk a).mem (a.buf + i * a.chunk_size) =
      if i = 0 then a.free_list_head else a.buf + (i - 1) * a.chunk_size) := by
  induction n with
  | zero => exact ⟨fun h => absurd h (by omega), fun i hi => absurd hi (by omega)⟩
  | succ m ih =>
    have hfold : (List.range (m + 1)).foldl pool_push_chunk a =
        pool_push_chunk ((List.range m).foldl pool_push_chunk a) m := by
      rw [List.range_succ, List.foldl_append, List.foldl_cons, List.foldl_nil]
    have hfields := pool_push_fold_fields (List.range m) a
    constructor
    · intro _
      rw [hfold]
      show ((List.range m).foldl pool_push_chunk a).buf +
          m * ((List.range m).foldl pool_push_chunk a).chunk_size =
        a.buf + (m + 1 - 1) * a.chunk_size
      rw [hfields.1, hfields.2.2, Nat.add_sub_cancel]
    · intro i hi
      rw [hfold]
      show writeMem ((List.range m).foldl pool_push_chunk a).mem
          (((List.range m).foldl pool_push_chunk a).buf +
            m * ((List.range m).foldl pool_push_chunk a).chunk_size)
          ((List.range m).foldl pool_push_chunk a).free_list_head
          (a.buf + i * a.chunk_size) = _
      rw [hfields.1, hfields.2.2, writeMem]
      by_cases him : i = m
      · subst him
        rw [if_pos rfl]
        by_cases h0 : i = 0
        · subst h0
          rw [if_pos rfl]
          rfl
        · rw [if_neg h0]
          exact ih.1 (by omega)
      · have hne : a.buf + i * a.chunk_size ≠ a.buf + m * a.chunk_size := by
          intro heq
          exact him (Nat.eq_of_mul_eq_mul_right hcs (by omega))
        rw [if_neg hne]
        exact ih.2 i (by omega)

/-- Invariant of the allocation phase after a `free_all` performed on an
empty free list: after `k` allocations the head points at chunk `n - 1 - k`
(or is null once all `n` chunks are gone), and the links of the remaining
chunks are untouched. -/
theorem pool_alloc_iter_after_free_all (a : Allocator_Pool)
    (hcs : 0 < a.chunk_size) (hbuf : 0 < a.buf) (hhead : a.free_list_head = 0) :
    ∀ k, k ≤ a.buf_len / a.chunk_size →
      ((pool_alloc_iter (allocator_pool_free_all a) k).free_list_head =
        if k = a.buf_len / a.chunk_size then 0
        else a.buf + (a.buf_len / a.chunk_size - 1 - k) * a.chunk_size) ∧
      (∀ i, i < a.buf_len / a.chunk_size - k →
        (pool_alloc_iter (allocator_pool_free_all a) k).mem (a.buf + i * a.chunk_size) =
          if i = 0 then 0 else a.buf + (i - 1) * a.chunk_size) := by
  have hbase := pool_push_fold_range a hcs (a.buf_len / a.chunk_size)
  intro k
  induction k with
  | zero =>
    intro _
    constructor
    · by_cases h0 : a.buf_len / a.chunk_size = 0
      · rw [if_pos h0.symm]
        show ((List.range (a.buf_len / a.chunk_size)).foldl pool_push_chunk a).free_list_head = 0
        rw [h0]
        exact hhead
      · rw [if_neg (by omega)]
        have := hbase.1 (by omega)
        simpa using this
    · intro i hi
      have := hbase.2 i (by omega)
      rw [hhead] at this
      simpa using this
  | succ m ih =>
    intro hk
    have hmn : m < a.buf_len / a.chunk_size := by omega
    obtain ⟨ihh, ihm⟩ := ih (by omega)
    rw [if_neg (by omega)] at ihh
    have hne : a.buf + (a.buf_len / a.chunk_size - 1 - m) * a.chunk_size ≠ 0 := by
      omega
    have hstep : pool_alloc_iter (allocator_pool_free_all a) (m + 1) =
        { pool_alloc_iter (allocator_pool_free_all a) m with
          free_list_head :=
            (pool_alloc_iter (allocator_pool_free_all a) m).mem
              ((pool_alloc_iter (allocator_pool_free_all a) m).free_list_head),
          mem := writeMem (pool_alloc_iter (allocator_pool_free_all a) m).mem
              ((pool_alloc_iter (allocator_pool_free_all a) m).free_list_head) 0 } := by
      show (allocator_pool_alloc (pool_alloc_iter (allocator_pool_free_all a) m)).2.2 = _
      unfold allocator_pool_alloc
      rw [ihh]
      rw [if_neg hne]
    constructor
    · rw [hstep]
      show (pool_alloc_iter (allocator_pool_free_all a) m).mem
          ((pool_alloc_iter (allocator_pool_free_all a) m).free_list_head) = _
      rw [ihh]
      have hlt : a.buf_len / a.chunk_size - 1 - m < a.buf_len / a.chunk_size - m := by
        omega
      rw [ihm _ hlt]
      by_cases hend : m + 1 = a.buf_len / a.chunk_size
      · rw [if_pos hend, if_pos (by omega)]
      · rw [if_neg hend, if_neg (by omega)]
        have hidx : a.buf_len / a.chunk_size - 1 - m - 1 =
            a.buf_len / a.chunk_size - 1 - (m + 1) := by omega
        rw [hidx]
    · intro i hi
      rw [hstep]
      show writeMem (pool_alloc_iter (allocator_pool_free_all a) m).mem
          ((pool_alloc_iter (allocator_pool_free_all a) m).free_list_head) 0
          (a.buf + i * a.chunk_size) = _
      rw [ihh, writeMem]
      have hne2 : a.buf + i * a.chunk_size ≠
          a.buf + (a.buf_len / a.chunk_size - 1 - m) * a.chunk_size := by
        intro heq
        have : i = a.buf_len / a.chunk_size - 1 - m :=
          Nat.eq_of_mul_eq_mul_right hcs (by omega)
        omega
      rw [if_neg hne2]
      exact ihm i (by omega)

/-- C10 (amended): for every pool state whose free list is empty (as it is at
the point `allocator_pool_init` runs the initial `allocator_pool_free_all`),
running `allocator_pool_free_all` makes the next `n = buf_len / chunk_size`
allocations return the `n` chunks in descending address order starting at
offset `(n - 1) * chunk_size`, after which the free list is exhausted (the
next allocation fails): the list contained exactly those `n` chunks. -/
theorem pool_free_all_from_empty_exact_descending (a : Allocator_Pool)
    (hcs : 0 < a.chunk_size) (hbuf : 0 < a.buf) (hhead : a.free_list_head = 0) :
    (∀ k, k < a.buf_len / a.chunk_size →
      pool_alloc_result (allocator_pool_free_all a) k =
        some (a.buf + (a.buf_len / a.chunk_size - 1 - k) * a.chunk_size)) ∧
    pool_alloc_result (allocator_pool_free_all a) (a.buf_len / a.chunk_size) = none := by
  have hinv := pool_alloc_iter_after_free_all a hcs hbuf hhead
  constructor
  · intro k hk
    have h := (hinv k (by omega)).1
    rw [if_neg (by omega)] at h
    show (allocator_pool_alloc (pool_alloc_iter (allocator_pool_free_all a) k)).1 = _
    unfold allocator_pool_alloc
    rw [h]
    rw [if_neg (by omega)]
  · have h := (hinv (a.buf_len / a.chunk_size) (by omega)).1
    rw [if_pos rfl] at h
    show (allocator_pool_alloc
      (pool_alloc_iter (allocator_pool_free_all a) (a.buf_len / a.chunk_size))).1 = _
    unfold allocator_pool_alloc
    rw [h]
    rfl

/-- C10 witness: `allocator_pool_init 8 16 8 8` is by definition a
`free_all` over the empty-list base state, so the theorem yields the two
descending allocations 16 and 8 followed by exhaustion. -/
theorem pool_free_all_from_empty_exact_descending_witness :
    pool_alloc_result (allocator_pool_init 8 16 8 8 (fun _ => 0)) 0 = some 16 ∧
    pool_alloc_result (allocator_pool_init 8 16 8 8 (fun _ => 0)) 1 = some 8 ∧
    pool_alloc_result (allocator_pool_init 8 16 8 8 (fun _ => 0)) 2 = none := by
  have h := pool_free_all_from_empty_exact_descending
    { buf := 8, buf_len := 16, chunk_size := 8, free_list_head := 0, mem := fun _ => 0 }
    (by decide) (by decide) rfl
  exact ⟨h.1 0 (by decide), h.1 1 (by decide), h.2⟩
